import Mathlib

/-!
Shallow embedding of `pytyrant.py`, a pure-Python client for the Tokyo
Tyrant binary protocol, together with theorems checking the repository's
specification against the code.

Modelling conventions:
* Byte strings are `List Nat` (each entry one byte); `struct.pack` fields are
  modelled by explicit big-endian digit lists (`be32`, `be64`).
* The socket read side is a state function on the list of pending response
  bytes (`RW` below); a read past the end of the pending bytes is the
  situation where `sockrecv` would block forever, modelled as `PyErr.blocked`.
* The server side of a round trip is external to the repository, so functions
  that consume a server response take that response as an argument
  (`multi_get`), or take a response oracle (`Query.getitem`), or run against
  an explicit little server-state model (`IterSrv` for the key cursor).
* CPython float arithmetic in `adddouble`/`sockdouble` is modelled exactly
  over `ℚ`; the concrete inputs used in theorems (halves, quarters) are
  exactly representable as doubles, so the model agrees with CPython there.
-/

deriving instance DecidableEq for Except

namespace Pytyrant

/-- Python exceptions raised by the client code.  `TyrantError` carries the
nonzero status byte; `blocked` marks a read for which the peer never sends
enough bytes (`sockrecv` loops forever in that case). -/
inductive PyErr where
  | tyrantError (code : Nat)
  | keyError (msg : String)
  | indexError
  | typeError
  | valueError (msg : String)
  | assertionError (msg : String)
  | blocked
  deriving DecidableEq, Repr

/-- Magic byte prefixed to every request frame. -/
def MAGIC : Nat := 0xc8

def RDBMONOULOG : Nat := 1

def RDBQOSTRASC : Nat := 0

def RDBQOSTRDESC : Nat := 1

def RDBQONUMASC : Nat := 2

def RDBQONUMDESC : Nat := 3

namespace C

def put : Nat := 0x10

def putkeep : Nat := 0x11

def putcat : Nat := 0x12

def putshl : Nat := 0x13

def putnr : Nat := 0x18

def out : Nat := 0x20

def get : Nat := 0x30

def mget : Nat := 0x31

def vsiz : Nat := 0x38

def iterinit : Nat := 0x50

def iternext : Nat := 0x51

def fwmkeys : Nat := 0x58

def addint : Nat := 0x60

def adddouble : Nat := 0x61

def ext : Nat := 0x68

def sync : Nat := 0x70

def vanish : Nat := 0x71

def copy : Nat := 0x72

def restore : Nat := 0x73

def setmst : Nat := 0x78

def rnum : Nat := 0x80

def size : Nat := 0x81

def stat : Nat := 0x88

def misc : Nat := 0x90

end C

/-- Big-endian 4-byte encoding, `struct.pack` format `>I`.  `struct` rejects
values outside `[0, 2^32)`; theorems about frames bound their inputs
accordingly (the total model reduces larger values modulo `2^32`). -/
def be32 (n : Nat) : List Nat :=
  [n / 2 ^ 24 % 256, n / 2 ^ 16 % 256, n / 2 ^ 8 % 256, n % 256]

/-- Big-endian 8-byte encoding, `struct.pack` format `>Q`. -/
def be64 (n : Nat) : List Nat :=
  [n / 2 ^ 56 % 256, n / 2 ^ 48 % 256, n / 2 ^ 40 % 256, n / 2 ^ 32 % 256,
   n / 2 ^ 24 % 256, n / 2 ^ 16 % 256, n / 2 ^ 8 % 256, n % 256]

/-- `_t1(code, key)`: `pack('>BBI', MAGIC, code, len(key))` then the key,
as the list of chunks handed to `socksend`. -/
def _t1 (code : Nat) (key : List Nat) : List (List Nat) :=
  [[MAGIC, code] ++ be32 key.length, key]

/-- `_t1R(code, key, msec)`: `pack('>BBIQ', MAGIC, code, len(key), msec)`
then the key. -/
def _t1R (code : Nat) (key : List Nat) (msec : Nat) : List (List Nat) :=
  [[MAGIC, code] ++ be32 key.length ++ be64 msec, key]

/-- `_tDouble(code, key, integ, fract)`:
`pack('>BBIQQ', MAGIC, code, len(key), integ, fract)` then the key. -/
def _tDouble (code : Nat) (key : List Nat) (integ fract : Nat) : List (List Nat) :=
  [[MAGIC, code] ++ be32 key.length ++ be64 integ ++ be64 fract, key]

/-- `socksend(sock, lst)` writes `''.join(lst)`: the bytes put on the wire
for a chunk list built by the `_t*` helpers. -/
def socksendBytes (lst : List (List Nat)) : List Nat := lst.flatten

/-- `Tyrant.copy`: sends `_t1(C.copy, path)`. -/
def copyRequest (path : List Nat) : List Nat := socksendBytes (_t1 C.copy path)

/-- `Tyrant.restore`: sends `_t1R(C.copy, path, msec)` — note the source
passes `C.copy`, not `C.restore`, as the opcode. -/
def restoreRequest (path : List Nat) (msec : Nat) : List Nat :=
  socksendBytes (_t1R C.copy path msec)

/-- Python `int()` applied to a real value: truncation toward zero. -/
def pytrunc (q : ℚ) : Int := if 0 ≤ q then ⌊q⌋ else ⌈q⌉

/-- `math.modf(num)`: the pair `(fractional part, integer part)`, both with
the sign of `num`, modelled exactly over `ℚ`. -/
def pymodf (q : ℚ) : ℚ × ℚ := (q - pytrunc q, (pytrunc q : ℚ))

/-- `Tyrant.adddouble`'s request frame: the source computes
`fracpart, intpart = math.modf(num)`, then
`fracpart, intpart = int(fracpart * 1e12), int(intpart)`, and sends
`_tDouble(C.adddouble, key, fracpart, intpart)` — so `fracpart` lands in
`_tDouble`'s `integ` slot and `intpart` in its `fract` slot.
`struct.pack '>Q'` rejects negative values, so the model covers nonnegative
deltas via `Int.toNat`. -/
def adddoubleRequest (key : List Nat) (num : ℚ) : List Nat :=
  let p := pymodf num
  let fracpart : Int := pytrunc (p.1 * 1000000000000)
  let intpart : Int := pytrunc p.2
  socksendBytes (_tDouble C.adddouble key fracpart.toNat intpart.toNat)

/-- Modelled from the spec: the adddouble request carries, after magic byte,
opcode and 4-byte key length, the delta's integer part as an 8-byte
big-endian integer followed by the delta's fraction part scaled by 1e12 as
an 8-byte big-endian integer (in that order), then the key bytes. -/
def adddoubleRequestSpec (key : List Nat) (num : ℚ) : List Nat :=
  let p := pymodf num
  let fracpart : Int := pytrunc (p.1 * 1000000000000)
  let intpart : Int := pytrunc p.2
  socksendBytes (_tDouble C.adddouble key intpart.toNat fracpart.toNat)

/-- C3: at delta `3/2` on key `"x"` (byte 120) the code's adddouble frame
places the scaled fraction part (`500000000000`) in the first 8-byte slot
and the integer part (`1`) in the second, the reverse of the order the
claim (and `_tDouble`'s own parameter names) state; the frame therefore
differs from the spec-ordered frame. -/
theorem adddouble_request_swaps_parts :
    adddoubleRequest [120] (3 / 2)
      = [MAGIC, C.adddouble] ++ be32 1 ++ be64 500000000000 ++ be64 1 ++ [120]
    ∧ adddoubleRequestSpec [120] (3 / 2)
      = [MAGIC, C.adddouble] ++ be32 1 ++ be64 1 ++ be64 500000000000 ++ [120]
    ∧ adddoubleRequest [120] (3 / 2) ≠ adddoubleRequestSpec [120] (3 / 2) := by
  have h0 : pytrunc (3 / 2 : ℚ) = 1 := by norm_num [pytrunc]
  have h1 : pymodf (3 / 2 : ℚ) = (1 / 2, 1) := by
    simp only [pymodf, h0]
    norm_num
  have h2 : pytrunc ((1 / 2 : ℚ) * 1000000000000) = 500000000000 := by
    norm_num [pytrunc]
  have h3 : pytrunc (1 : ℚ) = 1 := by norm_num [pytrunc]
  refine ⟨?_, ?_, ?_⟩ <;>
    simp only [adddoubleRequest, adddoubleRequestSpec, h1, h2, h3] <;> decide

/-- C9: the restore request frame is magic byte, then the copy opcode (the
very byte the copy operation sends, not the distinct `C.restore` opcode),
then the 4-byte big-endian path length, then the 8-byte big-endian
timestamp, then the path bytes. -/
theorem restore_request_reuses_copy_opcode (path : List Nat) (msec : Nat)
    (_hp : path.length < 2 ^ 32) (_hm : msec < 2 ^ 64) :
    restoreRequest path msec
      = MAGIC :: C.copy :: (be32 path.length ++ be64 msec ++ path)
    ∧ copyRequest path = MAGIC :: C.copy :: (be32 path.length ++ path)
    ∧ C.copy = 0x72 ∧ C.restore = 0x73 ∧ C.copy ≠ C.restore := by
  refine ⟨?_, ?_, rfl, rfl, by decide⟩
  · simp [restoreRequest, socksendBytes, _t1R]
  · simp [copyRequest, socksendBytes, _t1]

/-- Witness for C9 at path `"a"` (byte 97) and timestamp 5. -/
theorem restore_request_reuses_copy_opcode_witness :
    ([97] : List Nat).length < 2 ^ 32 ∧ (5 : Nat) < 2 ^ 64 ∧
    (restoreRequest [97] 5
        = MAGIC :: C.copy :: (be32 ([97] : List Nat).length ++ be64 5 ++ [97])
      ∧ copyRequest [97] = MAGIC :: C.copy :: (be32 ([97] : List Nat).length ++ [97])
      ∧ C.copy = 0x72 ∧ C.restore = 0x73 ∧ C.copy ≠ C.restore) :=
  ⟨by decide, by decide, restore_request_reuses_copy_opcode [97] 5 (by decide) (by decide)⟩

/-- Pending bytes of one server response, as seen by the socket readers. -/
abbrev Sock := List Nat

/-- A response reader: consumes bytes from the pending response, producing a
value or a raised exception, together with the bytes left unread. -/
def RW (α : Type) : Type := Sock → Except PyErr α × Sock

/-- Reader returning a value without touching the socket. -/
def rwPure {α : Type} (a : α) : RW α := fun s => (.ok a, s)

/-- Sequencing of readers; an exception propagates without running the
continuation (Python exception flow). -/
def rbind {α β : Type} (m : RW α) (f : α → RW β) : RW β := fun s =>
  match m s with
  | (.ok a, s₁) => f a s₁
  | (.error e, s₁) => (.error e, s₁)

/-- `sockrecv(sock, n)`: reads exactly `n` bytes; if the peer never sends
that many, the Python loop blocks forever (`PyErr.blocked`). -/
def sockrecv (n : Nat) : RW (List Nat) := fun s =>
  if n ≤ s.length then (.ok (s.take n), s.drop n) else (.error .blocked, s)

/-- Big-endian decoding of a byte list (`struct.unpack` formats `>I`/`>Q`). -/
def beDecode (bs : List Nat) : Nat := bs.foldl (fun a b => a * 256 + b) 0

/-- `socksuccess(sock)`: reads the one-byte status code and raises
`TyrantError(code)` when it is nonzero. -/
def socksuccess : RW Unit :=
  rbind (sockrecv 1) fun bs => fun s =>
    match bs with
    | [b] => if b = 0 then (.ok (), s) else (.error (.tyrantError b), s)
    | _ => (.error .blocked, s)

/-- `socklen(sock)`: a 4-byte big-endian integer. -/
def socklen : RW Nat := rbind (sockrecv 4) fun bs => rwPure (beDecode bs)

/-- `socklong(sock)`: an 8-byte big-endian integer. -/
def socklong : RW Nat := rbind (sockrecv 8) fun bs => rwPure (beDecode bs)

/-- `sockstr(sock)`: a 4-byte length then that many raw bytes. -/
def sockstr : RW (List Nat) := rbind socklen fun n => sockrecv n

/-- `sockdouble(sock)`: two 8-byte integers combined as
`intpart + fracpart * 1e-12` (the float arithmetic modelled exactly). -/
def sockdouble : RW ℚ :=
  rbind (sockrecv 16) fun bs =>
    rwPure ((beDecode (bs.take 8) : ℚ) + (beDecode (bs.drop 8) : ℚ) * (1 / 10 ^ 12))

/-- Response phase of `Tyrant.put` (and of every other operation whose
success payload is empty): just the status byte. -/
def putReadResponse : RW Unit := socksuccess

/-- Response phase of `Tyrant.get`: status byte then a length-prefixed
byte string. -/
def getReadResponse : RW (List Nat) := rbind socksuccess fun _ => sockstr

/-- Response phase of `Tyrant.vsiz`: status byte then a 4-byte integer. -/
def vsizReadResponse : RW Nat := rbind socksuccess fun _ => socklen

/-- Response phase of `Tyrant.rnum`/`Tyrant.size`: status byte then an
8-byte integer. -/
def rnumReadResponse : RW Nat := rbind socksuccess fun _ => socklong

/-- Response phase of `Tyrant.adddouble`: status byte then the fixed-point
double. -/
def adddoubleReadResponse : RW ℚ := rbind socksuccess fun _ => sockdouble

/-- `numrecs` length-prefixed strings, the loop at the end of
`Tyrant._misc`. -/
def readStrs : Nat → RW (List (List Nat))
  | 0 => rwPure []
  | n + 1 => rbind sockstr fun x => rbind (readStrs n) fun xs => rwPure (x :: xs)

/-- Response phase of `Tyrant._misc`: the source wraps the status check in
`try: socksuccess(sock) finally: numrecs = socklen(sock)`, so the 4-byte
record count is read even when the status byte is nonzero, and only then
does the `TyrantError` propagate (an exception inside the `finally` block
would replace the original one). -/
def miscReadResponse : RW (List (List Nat)) := fun s =>
  let r₁ := socksuccess s
  let r₂ := socklen r₁.2
  match r₂.1 with
  | .error e => (.error e, r₂.2)
  | .ok numrecs =>
    match r₁.1 with
    | .error e => (.error e, r₂.2)
    | .ok _ => readStrs numrecs r₂.2

/-- A nonzero status byte makes `socksuccess` raise `TyrantError` with that
code, consuming only the status byte. -/
theorem socksuccess_nonzero (b : Nat) (rest : Sock) (hb : b ≠ 0) :
    socksuccess (b :: rest) = (.error (.tyrantError b), rest) := by
  simp [socksuccess, rbind, sockrecv, hb]

/-- C2 (amended): every response reader that starts with the plain status
check — i.e. every operation except the fire-and-forget `putnr`, which reads
nothing, and `_misc` — fails with `TyrantError(code)` on a nonzero status
byte without reading further bytes; `_misc` also fails with
`TyrantError(code)`, but its `try/finally` first reads the 4-byte record
count, so four additional bytes are consumed before the error propagates. -/
theorem status_error_consumption :
    (∀ (α : Type) (f : Unit → RW α) (b : Nat) (rest : Sock), b ≠ 0 →
      rbind socksuccess f (b :: rest) = (.error (.tyrantError b), rest))
    ∧ (∀ (b : Nat) (rest : Sock), b ≠ 0 → 4 ≤ rest.length →
      miscReadResponse (b :: rest) = (.error (.tyrantError b), rest.drop 4)) := by
  constructor
  · intro α f b rest hb
    simp [rbind, socksuccess_nonzero b rest hb]
  · intro b rest hb hlen
    simp [miscReadResponse, socksuccess_nonzero b rest hb, socklen, rbind, sockrecv,
      rwPure, hlen]

/-- Witness for the amended C2: a get-style reader on status byte 2 stops
after the status byte; `_misc` on the same status byte consumes the four
record-count bytes as well. -/
theorem status_error_consumption_witness :
    (2 : Nat) ≠ 0 ∧ 4 ≤ ([0, 0, 0, 7, 9] : Sock).length
    ∧ rbind socksuccess (fun _ => sockstr) [2, 9] = (.error (.tyrantError 2), [9])
    ∧ miscReadResponse [2, 0, 0, 0, 7, 9] = (.error (.tyrantError 2), [9]) := by
  refine ⟨by decide, by decide, status_error_consumption.1 _ _ 2 [9] (by decide), ?_⟩
  have h := status_error_consumption.2 2 [0, 0, 0, 7, 9] (by decide) (by decide)
  simpa using h

/-- C2 counterexample: on the response stream `[2, 0, 0, 0, 7, 9]` the
`_misc` reader does raise `TyrantError 2`, but it leaves only `[9]` unread —
the four record-count bytes after the status byte were consumed, refuting
"no further response bytes are read" for the generic misc bulk call. -/
theorem misc_error_reads_reccount_counterexample :
    miscReadResponse [2, 0, 0, 0, 7, 9] = (.error (.tyrantError 2), [9])
    ∧ (miscReadResponse [2, 0, 0, 0, 7, 9]).2 ≠ [0, 0, 0, 7, 9] :=
  ⟨rfl, by decide⟩

/-- `list_to_dict(lst)`: Python builds `dict((lst[i], lst[i + 1]) for i in
xrange(0, len(lst), 2))`; modelled as the association list of the pairs in
order (lookup below implements the dict's last-binding-wins semantics).
An odd-length list raises `IndexError` at the final `lst[i + 1]`. -/
def list_to_dict : List String → Except PyErr (List (String × String))
  | [] => .ok []
  | [_] => .error .indexError
  | a :: b :: rest => Except.map (fun d => (a, b) :: d) (list_to_dict rest)

/-- `d.get(k)` on a Python dict built from `pairs` in order: the value of
the last pair whose key is `k`, or `None`. -/
def dictGet (pairs : List (String × String)) (k : String) : Option String :=
  pairs.reverse.lookup k

/-- The flattening whose un-flattening `list_to_dict` performs: an
interleaved key/value list. -/
def interleavePairs : List (String × String) → List String
  | [] => []
  | (a, b) :: rest => a :: b :: interleavePairs rest

theorem list_to_dict_interleave (ps : List (String × String)) :
    list_to_dict (interleavePairs ps) = .ok ps := by
  induction ps with
  | nil => rfl
  | cons p rest ih =>
    obtain ⟨a, b⟩ := p
    simp [interleavePairs, list_to_dict, ih, Except.map]

/-- `PyTyrant.multi_get`'s handling of the `misc("getlist", opts, keys)`
response `rval` (the server round trip is external, so the decoded response
list is a parameter).  The Python result is a list holding either strings or
`None`; both shapes are injected into `Option String`. -/
def multi_get (keys rval : List String) : Except PyErr (List (Option String)) :=
  if rval.length ≤ keys.length then
    if rval.length < keys.length then
      .error (.keyError "Missing a result, unusable response in 1.1.10")
    else .ok (rval.map some)
  else
    Except.map (fun d => keys.map (fun k => dictGet d k)) (list_to_dict rval)

/-- C1: with `N` requested keys, a decoded response with fewer than `N`
entries raises the "unusable response" `KeyError`; exactly `N` entries are
returned as the values in request order; more than `N` entries are decoded
as interleaved key/value pairs and re-keyed so that the returned list gives
each requested key's value in request order. -/
theorem multi_get_shapes (keys rval : List String) :
    (rval.length < keys.length →
      multi_get keys rval
        = .error (.keyError "Missing a result, unusable response in 1.1.10"))
    ∧ (rval.length = keys.length → multi_get keys rval = .ok (rval.map some))
    ∧ (∀ ps : List (String × String), rval = interleavePairs ps →
        keys.length < rval.length →
        multi_get keys rval = .ok (keys.map (fun k => dictGet ps k))) := by
  refine ⟨fun hlt => ?_, fun heq => ?_, fun ps hps hgt => ?_⟩
  · simp [multi_get, Nat.le_of_lt hlt, hlt]
  · simp [multi_get, heq]
  · have hnle : ¬ rval.length ≤ keys.length := Nat.not_le_of_lt hgt
    subst hps
    simp [multi_get, hnle, list_to_dict_interleave, Except.map]

/-- Witness for C1: keys `["a", "b"]` against a short legacy response, an
exact legacy response, and an interleaved response (out of request order,
with an extra key). -/
theorem multi_get_shapes_witness :
    (["v1"] : List String).length < (["a", "b"] : List String).length
    ∧ multi_get ["a", "b"] ["v1"]
        = .error (.keyError "Missing a result, unusable response in 1.1.10")
    ∧ multi_get ["a", "b"] ["v1", "v2"] = .ok [some "v1", some "v2"]
    ∧ multi_get ["a", "b"] (interleavePairs [("b", "2"), ("x", "9"), ("a", "1")])
        = .ok [some "1", some "2"] := by
  refine ⟨by decide, (multi_get_shapes ["a", "b"] ["v1"]).1 (by decide),
    (multi_get_shapes ["a", "b"] ["v1", "v2"]).2.1 (by decide), ?_⟩
  have h := (multi_get_shapes ["a", "b"]
    (interleavePairs [("b", "2"), ("x", "9"), ("a", "1")])).2.2
    [("b", "2"), ("x", "9"), ("a", "1")] rfl (by decide)
  rw [h]
  decide

/-- The zero byte used as token separator inside one query condition. -/
def NUL : Char := Char.ofNat 0

/-- Python `'\x00'.join(parts)`. -/
def nulJoin (parts : List String) : String :=
  String.intercalate (String.singleton NUL) parts

/-- The `QUERY_OPERATIONS` table: operation name to decimal opcode string. -/
def QUERY_OPERATIONS : String → Option String := fun op =>
  match op with
  | "streq" => some "0"
  | "strinc" => some "1"
  | "strbw" => some "2"
  | "strew" => some "3"
  | "strand" => some "4"
  | "stror" => some "5"
  | "stroreq" => some "6"
  | "strrx" => some "7"
  | "numeq" => some "8"
  | "numgt" => some "9"
  | "numge" => some "10"
  | "numlt" => some "11"
  | "numle" => some "12"
  | "numbt" => some "13"
  | "numoreq" => some "14"
  | _ => none

/-- A keyword value passed to `Query.filter`: a string, or an iterable of
strings (joined with commas before encoding). -/
inductive FilterValue where
  | str (s : String)
  | list (l : List String)
  deriving DecidableEq, Repr

def filterValueJoin : FilterValue → String
  | .str s => s
  | .list l => String.intercalate "," l

/-- A `Query`: the accumulated condition strings plus the memoized result
cache (`None` until `_get_results` first runs).  The `ptt` connection handle
is external; operations that hit the network take a server oracle. -/
structure Query where
  conditions : List String
  resultCache : Option (List String)
  deriving DecidableEq, Repr

/-- `Query._clone()`: a fresh `Query` (empty conditions, empty cache) whose
condition list is then replaced by a copy of the parent's. -/
def Query.clone (q : Query) : Query := ⟨q.conditions, none⟩

/-- One keyword of `Query.filter`: split the name on `__`, require exactly
`field__operation`, look the operation up in `QUERY_OPERATIONS`, join an
iterable value with commas, and build the `addcond` condition. -/
def filterCond (key : String) (value : FilterValue) : Except PyErr String :=
  match key.splitOn "__" with
  | [field, operation] =>
    match QUERY_OPERATIONS operation with
    | some opcode => .ok (nulJoin ["addcond", field, opcode, filterValueJoin value])
    | none => .error (.valueError (operation ++ " is not a valid query operation"))
  | _ =>
    .error (.valueError "Filter arguments should be of the form `field__operation`")

/-- The loop body of `Query.filter`: append each keyword's condition to the
clone, stopping at the first `ValueError`. -/
def filterGo : Query → List (String × FilterValue) → Except PyErr Query
  | acc, [] => .ok acc
  | acc, (k, v) :: rest =>
    match filterCond k v with
    | .error e => .error e
    | .ok cond => filterGo { acc with conditions := acc.conditions.concat cond } rest

/-- `Query.filter(**query)`: clone the query, then append one condition per
keyword. -/
def Query.filter (q : Query) (kwargs : List (String × FilterValue)) :
    Except PyErr Query :=
  filterGo q.clone kwargs

/-- `Query.order_by_num(field)`: clone, then append a numeric `setorder`
condition; a leading `-` selects descending order. -/
def Query.order_by_num (q : Query) (field : String) : Query :=
  let qc := q.clone
  if field.startsWith "-" then
    { qc with conditions :=
        qc.conditions.concat (nulJoin ["setorder", field.drop 1, toString RDBQONUMDESC]) }
  else
    { qc with conditions :=
        qc.conditions.concat (nulJoin ["setorder", field, toString RDBQONUMASC]) }

/-- `Query.order_by_str(field)`: clone, then append a string `setorder`
condition; a leading `-` selects descending order. -/
def Query.order_by_str (q : Query) (field : String) : Query :=
  let qc := q.clone
  if field.startsWith "-" then
    { qc with conditions :=
        qc.conditions.concat (nulJoin ["setorder", field.drop 1, toString RDBQOSTRDESC]) }
  else
    { qc with conditions :=
        qc.conditions.concat (nulJoin ["setorder", field, toString RDBQOSTRASC]) }

/-- The conditions a keyword list compiles to, in order, stopping at the
first invalid keyword — the specification-side description of what
`Query.filter` appends. -/
def filterConds : List (String × FilterValue) → Except PyErr (List String)
  | [] => .ok []
  | (k, v) :: rest =>
    match filterCond k v with
    | .error e => .error e
    | .ok c => Except.map (fun cs => c :: cs) (filterConds rest)

theorem filterGo_spec (kwargs : List (String × FilterValue)) (acc : Query) :
    filterGo acc kwargs
      = Except.map (fun cs => ⟨acc.conditions ++ cs, acc.resultCache⟩)
          (filterConds kwargs) := by
  induction kwargs generalizing acc with
  | nil => simp [filterGo, filterConds, Except.map]
  | cons p rest ih =>
    obtain ⟨k, v⟩ := p
    cases hc : filterCond k v with
    | error e => simp [filterGo, filterConds, hc, Except.map]
    | ok c =>
      simp only [filterGo, filterConds, hc, ih]
      cases filterConds rest with
      | error e => simp [Except.map]
      | ok cs => simp [Except.map, List.concat_eq_append]

/-- C4: each derivation method returns a new `Query` whose condition list is
the parent's list with the new condition(s) appended, and whose result cache
starts out unpopulated (`None`) no matter what the parent's cache holds; the
parent value itself is untouched (derivation is a pure function of it). -/
theorem query_derivation_fresh (q : Query) (kwargs : List (String × FilterValue))
    (field : String) :
    Query.filter q kwargs
      = Except.map (fun cs => ⟨q.conditions ++ cs, none⟩) (filterConds kwargs)
    ∧ Query.order_by_num q field
      = ⟨q.conditions
          ++ [nulJoin ["setorder",
                if field.startsWith "-" then field.drop 1 else field,
                toString (if field.startsWith "-" then RDBQONUMDESC else RDBQONUMASC)]],
         none⟩
    ∧ Query.order_by_str q field
      = ⟨q.conditions
          ++ [nulJoin ["setorder",
                if field.startsWith "-" then field.drop 1 else field,
                toString (if field.startsWith "-" then RDBQOSTRDESC else RDBQOSTRASC)]],
         none⟩ := by
  refine ⟨?_, ?_, ?_⟩
  · rw [Query.filter, filterGo_spec]
    rfl
  · by_cases h : field.startsWith "-" <;>
      simp [Query.order_by_num, Query.clone, h, List.concat_eq_append]
  · by_cases h : field.startsWith "-" <;>
      simp [Query.order_by_str, Query.clone, h, List.concat_eq_append]

/-- The argument of `Query.__getitem__`: an integer, a slice, or any other
value (which fails the `isinstance` check). -/
inductive PyIndex where
  | int (i : Int)
  | slice (start stop step : Option Int)
  | other
  deriving DecidableEq, Repr

/-- The value `Query.__getitem__` returns: `None`, one key, or a key list. -/
inductive GetRes where
  | none
  | str (s : String)
  | list (l : List String)
  deriving DecidableEq, Repr

/-- One `misc` round trip issued through `self.ptt.t.misc(func, opts, args)`. -/
structure MiscCall where
  func : String
  opts : Nat
  args : List String
  deriving DecidableEq, Repr

/-- CPython's slice-index adjustment (`PySlice_AdjustIndices`): shift a
negative index by the length, then clamp to the valid range, whose ends
depend on the step's sign. -/
def pyAdjustIndex (len : Nat) (stepNeg : Bool) (i : Int) : Int :=
  let j := if i < 0 then i + len else i
  if j < 0 then (if stepNeg then -1 else 0)
  else if (len : Int) ≤ j then (if stepNeg then (len : Int) - 1 else (len : Int))
  else j

/-- Python list slicing `l[start:stop:step]` for a nonzero `step`: normalize
the bounds CPython-style, compute the number of selected positions, and
collect `l[start' + j * step]` for `j` below that count. -/
def pySliceCore (l : List String) (start stop : Option Int) (step : Int) :
    List String :=
  let len := l.length
  let neg := step < 0
  let start' := match start with
    | Option.none => if neg then (len : Int) - 1 else 0
    | Option.some i => pyAdjustIndex len neg i
  let stop' := match stop with
    | Option.none => if neg then -1 else (len : Int)
    | Option.some i => pyAdjustIndex len neg i
  let n : Nat :=
    if neg then
      if start' ≤ stop' then 0 else (start' - stop' - 1).toNat / (-step).toNat + 1
    else
      if stop' ≤ start' then 0 else (stop' - start' - 1).toNat / step.toNat + 1
  (List.range n).map (fun j => l.getD (start' + j * step).toNat "")

/-- Python list slicing including the `ValueError` on step 0. -/
def pySliceElems (l : List String) (start stop step : Option Int) :
    Except PyErr (List String) :=
  let s := step.getD 1
  if s = 0 then .error (.valueError "slice step cannot be zero")
  else .ok (pySliceCore l start stop s)

/-- Python list indexing `l[i]` with an integer: negative indices count from
the end; out of range raises `IndexError`. -/
def pyListGetInt (l : List String) (i : Int) : Except PyErr String :=
  let j := if i < 0 then i + l.length else i
  if 0 ≤ j ∧ j < (l.length : Int) then .ok (l.getD j.toNat "")
  else .error .indexError

/-- The `assert` guard of `Query.__getitem__`: an integer index must be
nonnegative, and a slice's start and stop must each be absent or
nonnegative. -/
def indexOk : PyIndex → Bool
  | .int i => decide (0 ≤ i)
  | .slice start stop _ =>
    start.all (fun i => decide (0 ≤ i)) && stop.all (fun i => decide (0 ≤ i))
  | .other => true

/-- The populated-cache branch of `Query.__getitem__`:
`try: return self._result_cache[k] except IndexError:` — the `IndexError`
of an integer index past the end becomes `None`; a slice never raises
`IndexError` (though step 0 raises `ValueError`, which is re-raised). -/
def cacheAnswer (l : List String) : PyIndex → Except PyErr GetRes
  | .int i =>
    match pyListGetInt l i with
    | .ok v => .ok (.str v)
    | .error _ => .ok .none
  | .slice start stop step => Except.map GetRes.list (pySliceElems l start stop step)
  | .other => .error .typeError

/-- `Query.__getitem__(k)`.  `srv func opts args` is the decoded result list
of `self.ptt.t.misc(func, opts, args)`; the second component of the result
collects the `misc` calls issued during the lookup, in order. -/
def Query.getitem (srv : String → Nat → List String → List String) (q : Query)
    (k : PyIndex) : Except PyErr GetRes × List MiscCall :=
  match k with
  | .other => (.error .typeError, [])
  | _ =>
    if ¬ indexOk k then
      (.error (.assertionError "Negative indexing is not supported."), [])
    else
      match q.resultCache with
      | Option.some (x :: xs) => (cacheAnswer (x :: xs) k, [])
      | _ =>
        match k with
        | .slice start stop step =>
          let limit : Int := match stop with
            | Option.some sp => sp - start.getD 0
            | Option.none => -1
          let condition := nulJoin ["setlimit", toString limit, toString (start.getD 0)]
          let args := q.conditions ++ [condition]
          let resp := srv "search" 0 args
          let res : List String := match step with
            | Option.none => resp
            | Option.some st =>
              if st = 0 then resp
              else
                let stepped := pySliceCore resp Option.none Option.none st
                if stepped.isEmpty then resp else stepped
          (.ok (.list res), [⟨"search", 0, args⟩])
        | .int i =>
          let condition := nulJoin ["setlimit", "1", toString i]
          let args := q.conditions ++ [condition]
          (match srv "search" 0 args with
            | [] => .ok GetRes.none
            | v :: _ => .ok (.str v), [⟨"search", 0, args⟩])
        | .other => (.error .typeError, [])

/-- The limit of a slice lookup's `setlimit` directive:
`k.stop - (k.start or 0)` when a stop is given, `-1` otherwise. -/
def sliceLimit (start stop : Option Int) : Int :=
  match stop with
  | Option.some sp => sp - start.getD 0
  | Option.none => -1

/-- The local step application of a slice lookup: absent step leaves the
server's list as is, a (nonzero) step applies Python's `[::step]`. -/
def pyStepApply : Option Int → List String → List String
  | Option.none, resp => resp
  | Option.some st, resp => pySliceCore resp Option.none Option.none st

theorem pySliceCore_cons_ne_nil (x : String) (xs : List String) (st : Int) :
    pySliceCore (x :: xs) Option.none Option.none st ≠ [] := by
  simp only [pySliceCore, List.length_cons]
  by_cases hneg : st < 0
  · have h1 : ¬ ((xs.length + 1 : Int) - 1 ≤ -1) := by omega
    simp only [hneg, if_true, if_pos, Nat.cast_add, Nat.cast_one, h1, if_false, if_neg,
      not_false_eq_true]
    simp [List.range_succ]
  · have h1 : ¬ ((xs.length + 1 : Int) ≤ 0) := by omega
    simp only [hneg, if_false, if_neg, not_false_eq_true, Nat.cast_add, Nat.cast_one, h1]
    simp [List.range_succ]

theorem pySliceCore_nil (st : Int) :
    pySliceCore [] Option.none Option.none st = [] := by
  by_cases hneg : st < 0 <;> simp [pySliceCore, hneg]

theorem pySliceCore_eq_nil (l : List String) (st : Int)
    (h : pySliceCore l Option.none Option.none st = []) : l = [] := by
  cases l with
  | nil => rfl
  | cons x xs => exact absurd h (pySliceCore_cons_ne_nil x xs st)

theorem step_fallback_eq (resp : List String) (st : Int) :
    (if (pySliceCore resp Option.none Option.none st).isEmpty then resp
     else pySliceCore resp Option.none Option.none st)
      = pySliceCore resp Option.none Option.none st := by
  cases resp with
  | nil =>
    by_cases hneg : st < 0 <;> simp [pySliceCore, hneg]
  | cons x xs =>
    simp [List.isEmpty_eq_false.mpr (pySliceCore_cons_ne_nil x xs st)]

/-- C5: on a query whose result cache is unpopulated, a slice with
nonnegative (or absent) bounds issues exactly one `misc('search', 0, …)`
call whose argument list is the query's conditions plus a `setlimit`
directive with limit `stop - start` (`-1` when stop is absent) and offset
`start` (`0` when start is absent), and the slice's step — when one is
given — is applied locally, Python-style, to the returned list. -/
theorem slice_issues_bounded_search (srv : String → Nat → List String → List String)
    (q : Query) (start stop step : Option Int)
    (hc : q.resultCache = Option.none)
    (hst : start.all (fun i => decide (0 ≤ i)) = true)
    (hsp : stop.all (fun i => decide (0 ≤ i)) = true)
    (hstep : step ≠ Option.some 0) :
    Query.getitem srv q (.slice start stop step)
      = (.ok (.list (pyStepApply step (srv "search" 0 (q.conditions
            ++ [nulJoin ["setlimit", toString (sliceLimit start stop),
                  toString (start.getD 0)]])))),
         [⟨"search", 0, q.conditions
            ++ [nulJoin ["setlimit", toString (sliceLimit start stop),
                  toString (start.getD 0)]]⟩]) := by
  have hok : indexOk (.slice start stop step) = true := by
    simp [indexOk, hst, hsp]
  cases step with
  | none =>
    simp [Query.getitem, hok, hc, sliceLimit, pyStepApply]
  | some st =>
    have hst0 : ¬ st = 0 := fun h => hstep (by rw [h])
    simp only [Query.getitem, hok, hc, sliceLimit, pyStepApply, hst0, step_fallback_eq]
    simp

/-- Witness for C5: conditions `["c1"]`, server returning three keys; the
slice `[2:5:2]` issues one search with `setlimit 3 2` and keeps positions 0
and 2 of the returned three-element list. -/
theorem slice_issues_bounded_search_witness :
    (⟨["c1"], Option.none⟩ : Query).resultCache = Option.none
    ∧ Query.getitem (fun _ _ _ => ["r0", "r1", "r2"]) ⟨["c1"], Option.none⟩
        (.slice (Option.some 2) (Option.some 5) (Option.some 2))
      = (.ok (.list ["r0", "r2"]),
         [⟨"search", 0, ["c1", nulJoin ["setlimit", "3", "2"]]⟩]) := by
  refine ⟨rfl, ?_⟩
  have h := slice_issues_bounded_search (fun _ _ _ => ["r0", "r1", "r2"])
    ⟨["c1"], Option.none⟩ (Option.some 2) (Option.some 5) (Option.some 2)
    rfl (by decide) (by decide) (by decide)
  rw [h]
  decide

/-- C6: on a query whose result cache is unpopulated, a nonnegative integer
index `k` issues exactly one `misc('search', 0, …)` call with the query's
conditions plus a `setlimit` directive with limit 1 and offset `k`, and
returns the single result when the response is non-empty, or `None` when it
is empty. -/
theorem int_index_issues_limit1_search (srv : String → Nat → List String → List String)
    (q : Query) (i : Int) (hc : q.resultCache = Option.none) (hi : 0 ≤ i) :
    Query.getitem srv q (.int i)
      = (match srv "search" 0 (q.conditions ++ [nulJoin ["setlimit", "1", toString i]]) with
          | [] => .ok GetRes.none
          | v :: _ => .ok (.str v),
         [⟨"search", 0, q.conditions ++ [nulJoin ["setlimit", "1", toString i]]⟩]) := by
  have hok : indexOk (.int i) = true := by simp [indexOk, hi]
  simp [Query.getitem, hok, hc]

/-- Witness for C6: index 4 against a one-key response and against an empty
response. -/
theorem int_index_issues_limit1_search_witness :
    (⟨["c1"], Option.none⟩ : Query).resultCache = Option.none ∧ (0 : Int) ≤ 4
    ∧ Query.getitem (fun _ _ _ => ["k1"]) ⟨["c1"], Option.none⟩ (.int 4)
        = (.ok (.str "k1"), [⟨"search", 0, ["c1", nulJoin ["setlimit", "1", "4"]]⟩])
    ∧ Query.getitem (fun _ _ _ => []) ⟨["c1"], Option.none⟩ (.int 4)
        = (.ok GetRes.none, [⟨"search", 0, ["c1", nulJoin ["setlimit", "1", "4"]]⟩]) := by
  refine ⟨rfl, by decide, ?_, ?_⟩
  · have h := int_index_issues_limit1_search (fun _ _ _ => ["k1"])
      ⟨["c1"], Option.none⟩ 4 rfl (by decide)
    rw [h]
    decide
  · have h := int_index_issues_limit1_search (fun _ _ _ => [])
      ⟨["c1"], Option.none⟩ 4 rfl (by decide)
    rw [h]
    decide

/-- C7: a negative integer index, or a slice with a negative start or stop,
fails the `assert` (a validation error) with no `misc` call issued; an
argument that is neither an integer nor a slice raises `TypeError`, likewise
with no network I/O. -/
theorem invalid_index_no_network (srv : String → Nat → List String → List String)
    (q : Query) :
    (∀ i : Int, i < 0 →
      Query.getitem srv q (.int i)
        = (.error (.assertionError "Negative indexing is not supported."), []))
    ∧ (∀ start stop step : Option Int,
        (start.all (fun i => decide (0 ≤ i)) && stop.all (fun i => decide (0 ≤ i))) = false →
        Query.getitem srv q (.slice start stop step)
          = (.error (.assertionError "Negative indexing is not supported."), []))
    ∧ Query.getitem srv q .other = (.error .typeError, []) := by
  refine ⟨fun i hi => ?_, fun start stop step hneg => ?_, rfl⟩
  · have hok : indexOk (.int i) = false := by
      simp [indexOk]
      omega
    simp [Query.getitem, hok]
  · have hok : indexOk (.slice start stop step) = false := by
      simp only [indexOk]
      exact hneg
    simp [Query.getitem, hok]

/-- Witness for C7: index `-1`, slice `[0:-2]`, and a non-index argument all
fail before any search is issued. -/
theorem invalid_index_no_network_witness :
    (-1 : Int) < 0
    ∧ Query.getitem (fun _ _ _ => ["x"]) ⟨["c1"], Option.none⟩ (.int (-1))
        = (.error (.assertionError "Negative indexing is not supported."), [])
    ∧ Query.getitem (fun _ _ _ => ["x"]) ⟨["c1"], Option.none⟩
        (.slice (Option.some 0) (Option.some (-2)) Option.none)
        = (.error (.assertionError "Negative indexing is not supported."), [])
    ∧ Query.getitem (fun _ _ _ => ["x"]) ⟨["c1"], Option.none⟩ .other
        = (.error .typeError, []) := by
  have h := invalid_index_no_network (fun _ _ _ => ["x"]) ⟨["c1"], Option.none⟩
  exact ⟨by decide, h.1 (-1) (by decide),
    h.2.1 (Option.some 0) (Option.some (-2)) Option.none (by decide), h.2.2⟩

/-- C10: once the result cache holds a non-empty list, indexing and slicing
are answered from the cache with no `misc` call (an integer index past the
cached list's end yields `None`); a cache populated with the empty list is
indistinguishable from an unpopulated cache, so lookups re-issue the bounded
search. -/
theorem populated_cache_serves (srv : String → Nat → List String → List String)
    (q : Query) :
    (∀ x xs, q.resultCache = Option.some (x :: xs) →
      (∀ k, indexOk k = true →
        Query.getitem srv q k = (cacheAnswer (x :: xs) k, []))
      ∧ (∀ i : Int, 0 ≤ i → ((x :: xs).length : Int) ≤ i →
          Query.getitem srv q (.int i) = (.ok GetRes.none, [])))
    ∧ (∀ k, Query.getitem srv ⟨q.conditions, Option.some []⟩ k
        = Query.getitem srv ⟨q.conditions, Option.none⟩ k) := by
  constructor
  · intro x xs hc
    have hmain : ∀ k, indexOk k = true →
        Query.getitem srv q k = (cacheAnswer (x :: xs) k, []) := by
      intro k hk
      cases k with
      | int i => simp [Query.getitem, hk, hc]
      | slice start stop step => simp [Query.getitem, hk, hc]
      | other => simp [Query.getitem, cacheAnswer]
    refine ⟨hmain, fun i hi hlen => ?_⟩
    have hk : indexOk (.int i) = true := by simp [indexOk, hi]
    rw [hmain (.int i) hk]
    have hlen' : (xs.length : Int) + 1 ≤ i := by
      simp only [List.length_cons, Nat.cast_add, Nat.cast_one] at hlen
      omega
    have hj : ¬ (0 ≤ i ∧ i < (xs.length : Int) + 1) := by omega
    have hneg : ¬ i < 0 := by omega
    simp [cacheAnswer, pyListGetInt, hneg, hj]
  · intro k
    cases k with
    | int i => by_cases h : indexOk (.int i) <;> simp [Query.getitem, h]
    | slice start stop step =>
      by_cases h : indexOk (.slice start stop step) <;> simp [Query.getitem, h]
    | other => rfl

/-- Witness for C10: with cache `["a", "b"]`, index 1 is served from the
cache and index 7 yields `None`, both with no search; with cache `[]`, index
0 issues the same bounded search an uncached query would. -/
theorem populated_cache_serves_witness :
    (⟨["c1"], Option.some ["a", "b"]⟩ : Query).resultCache = Option.some ["a", "b"]
    ∧ Query.getitem (fun _ _ _ => ["x"]) ⟨["c1"], Option.some ["a", "b"]⟩ (.int 1)
        = (.ok (.str "b"), [])
    ∧ Query.getitem (fun _ _ _ => ["x"]) ⟨["c1"], Option.some ["a", "b"]⟩ (.int 7)
        = (.ok GetRes.none, [])
    ∧ Query.getitem (fun _ _ _ => ["x"]) ⟨["c1"], Option.some []⟩ (.int 0)
        = Query.getitem (fun _ _ _ => ["x"]) ⟨["c1"], Option.none⟩ (.int 0) := by
  have h := populated_cache_serves (fun _ _ _ => ["x"]) ⟨["c1"], Option.some ["a", "b"]⟩
  have h1 := (h.1 "a" ["b"] rfl).1 (.int 1) (by decide)
  have h7 := (h.1 "a" ["b"] rfl).2 7 (by decide) (by decide)
  refine ⟨rfl, ?_, h7, ?_⟩
  · rw [h1]
    decide
  · exact (populated_cache_serves (fun _ _ _ => ["x"]) ⟨["c1"], Option.none⟩).2 (.int 0)

/-- Server-side state of the key cursor driven by `iterinit`/`iternext`: the
database's key list (what one full iteration visits, in order) and the
cursor's remaining suffix. -/
structure IterSrv where
  keys : List String
  remaining : List String
  deriving DecidableEq, Repr

/-- The protocol calls `PyTyrant.iterkeys` makes, in order. -/
inductive IterOp where
  | init
  | next
  deriving DecidableEq, Repr

/-- `Tyrant.iterinit()`: resets the server cursor to the start of the key
space (always succeeds). -/
def iterinitOp (s : IterSrv) : IterSrv × Except PyErr Unit :=
  ({ s with remaining := s.keys }, .ok ())

/-- `Tyrant.iternext()`: returns the next key and advances the cursor, or
fails with the exhaustion `TyrantError` when no keys remain. -/
def iternextOp (s : IterSrv) : IterSrv × Except PyErr String :=
  match s.remaining with
  | [] => (s, .error (.tyrantError 1))
  | k :: rest => ({ s with remaining := rest }, .ok k)

/-- The `while True: yield self.t.iternext()` loop of `PyTyrant.iterkeys`,
with the surrounding `except TyrantError: pass`: collect yielded keys and
the `iternext` calls made, stopping quietly at the exhaustion error.  The
unbounded Python loop is run on enough fuel that the fuel never runs out
(`iterkeys_yields_all_keys` shows the exhaustion error, not the fuel, ends
the loop). -/
def iterkeysLoop : Nat → IterSrv → List String × List IterOp
  | 0, _ => ([], [])
  | fuel + 1, s =>
    match iternextOp s with
    | (s', .ok k) =>
      let r := iterkeysLoop fuel s'
      (k :: r.1, .next :: r.2)
    | (_, .error _) => ([], [.next])

/-- `PyTyrant.iterkeys()`: one `iterinit`, then the `iternext` loop. -/
def iterkeys (s : IterSrv) : List String × List IterOp :=
  let s₁ := (iterinitOp s).1
  let r := iterkeysLoop (s₁.remaining.length + 1) s₁
  (r.1, .init :: r.2)

theorem iterkeysLoop_spec (keys : List String) :
    ∀ rem : List String,
      iterkeysLoop (rem.length + 1) ⟨keys, rem⟩
        = (rem, List.replicate (rem.length + 1) .next) := by
  intro rem
  induction rem with
  | nil => rfl
  | cons k rest ih =>
    have hstep : iterkeysLoop (rest.length + 1 + 1) ⟨keys, k :: rest⟩
        = (k :: (iterkeysLoop (rest.length + 1) ⟨keys, rest⟩).1,
           .next :: (iterkeysLoop (rest.length + 1) ⟨keys, rest⟩).2) := rfl
    rw [List.length_cons, hstep, ih]
    simp [List.replicate]

/-- C8: against a database whose iteration visits `N` keys, `iterkeys` calls
`iterinit` once, then calls `iternext` `N + 1` times, yields exactly the `N`
keys in order, and ends normally — the exhaustion `TyrantError` of the final
`iternext` is swallowed rather than propagated (the function's result type
carries no error at all). -/
theorem iterkeys_yields_all_keys (s : IterSrv) :
    iterkeys s = (s.keys, .init :: List.replicate (s.keys.length + 1) .next) := by
  simp only [iterkeys, iterinitOp, iterkeysLoop_spec]

end Pytyrant
